import Mathlib

/-!
# Verification of the conqr process-supervision and log-aggregation engine

A shallow embedding, in Lean 4, of the core of the `conqr` TUI process
runner: the `LogBuffer` log store (`src/log-buffer.ts`), and the
`ProcessManager` supervisor (error heuristic, exit handling, restart
scheduling, timer bookkeeping, and shutdown).

Conventions of the embedding:
* JavaScript `Map` objects become Lean functions or association lists.
* JavaScript numbers that hold exit codes become `Option Int`
  (`none` models `null`, the signal-exit case).
* `Date.now()` is modelled by an explicit timestamp argument
  (the store samples the clock when appending; the two samples taken
  inside one `addLog` call are represented by one value, which no
  property below depends on).
* Stateful methods become functions from state to state, and code that
  interleaves waiting, signalling and event emission is modelled as a
  function producing the ordered list of externally visible actions.
-/

namespace Conqr

/-- Output stream of a log line (`'stdout' | 'stderr'` in the source). -/
inductive Source where
  | stdout
  | stderr
  deriving DecidableEq, Repr

/-- `LogEntry` from `src/log-buffer.ts`: the exact shape stored by the
buffer — a text line, a source stream, a timestamp, and an optional
process id.  The source sets `processId` only on the unified-buffer copy
of an entry; the interface declares no system-message flag. -/
structure LogEntry where
  line : String
  source : Source
  timestamp : Nat
  processId : Option Nat := none
  deriving DecidableEq, Repr

/-- State of `LogBuffer` from `src/log-buffer.ts`: a per-process map of
bounded buffers (modelled as a function defaulting to `[]`, matching
`getLogs`' `|| []`), the unified buffer, and the `maxLines` capacity. -/
structure LogBuffer where
  buffers : Nat → List LogEntry
  unifiedBuffer : List LogEntry
  maxLines : Nat

/-- `MAX_LINES_PER_PROCESS` from `src/log-buffer.ts`. -/
def MAX_LINES_PER_PROCESS : Nat := 1000

/-- The `LogBuffer` constructor: empty buffers, capacity 1000. -/
def LogBuffer.new : LogBuffer :=
  { buffers := fun _ => [], unifiedBuffer := [], maxLines := MAX_LINES_PER_PROCESS }

/-- `buffer.push(e); if (buffer.length > cap) buffer.shift()`:
append at the tail, then evict the head if the capacity is exceeded. -/
def pushCap (cap : Nat) (l : List LogEntry) (e : LogEntry) : List LogEntry :=
  let l' := l ++ [e]
  if cap < l'.length then l'.tail else l'

/-- `LogBuffer.addLog(processId, line, source)` from `src/log-buffer.ts`.
Pushes `{line, source, timestamp}` (no process id) onto the per-process
buffer and `{processId, line, source, timestamp}` onto the unified
buffer, evicting oldest entries beyond `maxLines` resp. `maxLines * 10`.
Note the declared signature accepts no further argument: callers in the
process manager pass a fourth `isSystem` flag, which this store cannot
record. -/
def LogBuffer.addLog (s : LogBuffer) (processId : Nat) (line : String)
    (source : Source) (now : Nat) : LogBuffer :=
  { s with
    buffers := fun q =>
      if q = processId then
        pushCap s.maxLines (s.buffers processId)
          { line := line, source := source, timestamp := now }
      else s.buffers q
    unifiedBuffer :=
      pushCap (s.maxLines * 10) s.unifiedBuffer
        { processId := some processId, line := line, source := source, timestamp := now } }

/-- `LogBuffer.getLogs(processId)`: the per-process buffer, `[]` if absent. -/
def LogBuffer.getLogs (s : LogBuffer) (processId : Nat) : List LogEntry :=
  s.buffers processId

/-- `LogBuffer.getUnifiedLogs()`. -/
def LogBuffer.getUnifiedLogs (s : LogBuffer) : List LogEntry :=
  s.unifiedBuffer

/-- `LogBuffer.clear(processId)` with an id: deletes only that
per-process buffer; the unified buffer is untouched. -/
def LogBuffer.clear (s : LogBuffer) (processId : Nat) : LogBuffer :=
  { s with buffers := fun q => if q = processId then [] else s.buffers q }

/-- `LogBuffer.clear()` with no id: drops all buffers, unified included. -/
def LogBuffer.clearAll (s : LogBuffer) : LogBuffer :=
  { s with buffers := fun _ => [], unifiedBuffer := [] }

/-- One `addLog` request: the arguments of one call, clock sample included. -/
structure AddReq where
  id : Nat
  line : String
  source : Source
  ts : Nat
  deriving DecidableEq, Repr

/-- Replay a sequence of `addLog` calls against a buffer state. -/
def runAdds (s : LogBuffer) (reqs : List AddReq) : LogBuffer :=
  reqs.foldl (fun acc r => acc.addLog r.id r.line r.source r.ts) s

/-- The per-process entry built for one request. -/
def perEntry (r : AddReq) : LogEntry :=
  { line := r.line, source := r.source, timestamp := r.ts }

/-- The unified-buffer entry built for one request. -/
def uniEntry (r : AddReq) : LogEntry :=
  { processId := some r.id, line := r.line, source := r.source, timestamp := r.ts }

/-- All per-process entries a request sequence appends for one id, in order. -/
def perEntries (p : Nat) (reqs : List AddReq) : List LogEntry :=
  (reqs.filter (fun r => r.id = p)).map perEntry

/-- All unified-buffer entries a request sequence appends, in order. -/
def uniEntries (reqs : List AddReq) : List LogEntry :=
  reqs.map uniEntry

/-! ## Error heuristic (`ProcessManager.detectError`, `src/unnamed/part_002:59-77`)

The source tests a line against one literal-alternative regex for red
ANSI codes and a list of patterns.  Each regex is embedded as an
executable matcher over the line's characters: literal alternation
becomes substring search, `/i` becomes ASCII case-folding (exactly the
canonicalization JavaScript applies for ASCII patterns in non-unicode
mode), `\s+`/`\d+` become nonempty runs of the corresponding character
classes (the token following each `\s+`/`\d+` here is never in the
class, so maximal munch is equivalent to regex backtracking), and the
one anchored pattern is matched against the whole line. -/

/-- ASCII case-folding, the `/i` canonicalization for ASCII patterns. -/
def asciiLower (c : Char) : Char :=
  if 'A' ≤ c ∧ c ≤ 'Z' then Char.ofNat (c.toNat + 32) else c

/-- The JavaScript regex `\s` class (ECMAScript WhiteSpace ∪ LineTerminator). -/
def jsWsChar (c : Char) : Bool :=
  c = ' ' ∨ c = '\t' ∨ c = '\n' ∨ c = '\r' ∨ c = '\x0b' ∨ c = '\x0c' ∨
  c = Char.ofNat 0x00a0 ∨ c = Char.ofNat 0x1680 ∨
  (Char.ofNat 0x2000 ≤ c ∧ c ≤ Char.ofNat 0x200a) ∨
  c = Char.ofNat 0x2028 ∨ c = Char.ofNat 0x2029 ∨ c = Char.ofNat 0x202f ∨
  c = Char.ofNat 0x205f ∨ c = Char.ofNat 0x3000 ∨ c = Char.ofNat 0xfeff

/-- The JavaScript regex `.`: any character but a line terminator. -/
def jsDotChar (c : Char) : Bool :=
  ¬ (c = '\n' ∨ c = '\r' ∨ c = Char.ofNat 0x2028 ∨ c = Char.ofNat 0x2029)

/-- The JavaScript regex `\d` class. -/
def jsDigit (c : Char) : Bool :=
  '0' ≤ c ∧ c ≤ '9'

/-- Does the needle occur at the very head of the haystack? -/
def prefixAt : List Char → List Char → Bool
  | [], _ => true
  | _ :: _, [] => false
  | a :: n, b :: h => a = b && prefixAt n h

/-- Literal substring search: `regex.test` for a literal pattern. -/
def containsSub (n : List Char) : List Char → Bool
  | [] => prefixAt n []
  | c :: t => prefixAt n (c :: t) || containsSub n t

/-- Case-insensitive literal substring search (`/pat/i.test`). -/
def containsSubCI (n h : List Char) : Bool :=
  containsSub (n.map asciiLower) (h.map asciiLower)

/-- Strip a case-insensitive literal prefix, returning the rest. -/
def dropCI : List Char → List Char → Option (List Char)
  | [], h => some h
  | _ :: _, [] => none
  | a :: n, b :: h => if asciiLower a = asciiLower b then dropCI n h else none

/-- `/Error\s+at/i` matched at the head of the list. -/
def errorWsAtHead (l : List Char) : Bool :=
  match dropCI "Error".data l with
  | none => false
  | some r =>
    (r.takeWhile jsWsChar ≠ []) && (dropCI "at".data (r.dropWhile jsWsChar)).isSome

/-- `/Error\s+at/i.test`: the pattern occurs somewhere in the line. -/
def errorWsAtSub : List Char → Bool
  | [] => false
  | c :: t => errorWsAtHead (c :: t) || errorWsAtSub t

/-- The part of the stack-frame pattern after `\(`, against the rest
of the line: `.+:\d+:\d+\)$`, i.e. the rest is
`y ++ ':' ++ d₁ ++ ':' ++ d₂ ++ ')'` with `y` a nonempty run of `.`
characters and `d₁`, `d₂` nonempty digit runs (parsed from the right;
each digit run and separator position is forced, so this is exactly
regex match existence). -/
def frameTail (l : List Char) : Bool :=
  match l.reverse with
  | ')' :: r1 =>
    (r1.takeWhile jsDigit ≠ []) &&
    (match r1.dropWhile jsDigit with
     | ':' :: r3 =>
       (r3.takeWhile jsDigit ≠ []) &&
       (match r3.dropWhile jsDigit with
        | ':' :: y => y ≠ [] && y.all jsDotChar
        | _ => false)
     | _ => false)
  | _ => false

/-- Scan for the `\(` split of `.+\(…`: some position with a nonempty
`.`-run before it whose remainder matches `frameTail`.  `seen` records
whether at least one `.` character precedes the current position. -/
def frameSplit : List Char → Bool → Bool
  | [], _ => false
  | c :: rest, seen =>
    (c = '(' && seen && frameTail rest) || (jsDotChar c && frameSplit rest true)

/-- `/^\s+at .+\(.+:\d+:\d+\)$/.test`: the anchored stack-frame shape. -/
def isStackFrameLine (l : List Char) : Bool :=
  (l.takeWhile jsWsChar ≠ []) &&
  (match l.dropWhile jsWsChar with
   | 'a' :: 't' :: ' ' :: rest => frameSplit rest false
   | _ => false)

/-- `ProcessManager.detectError` (`src/unnamed/part_002:59-77`): red
ANSI check `/\x1b\[31m|\x1b\[91m|\x1b\[38;5;1m/` or one of the listed
error patterns, in source order. -/
def detectError (line : String) : Bool :=
  let l := line.data
  let hasRedAnsi := containsSub "\x1b[31m".data l || containsSub "\x1b[91m".data l
    || containsSub "\x1b[38;5;1m".data l
  hasRedAnsi
    || containsSubCI "SyntaxError".data l
    || containsSubCI "TypeError".data l
    || containsSubCI "ReferenceError".data l
    || containsSubCI "Error:".data l
    || errorWsAtSub l
    || containsSubCI "FATAL".data l
    || containsSubCI "CRITICAL".data l
    || containsSubCI "failed".data l
    || containsSubCI "failure".data l
    || containsSubCI "cannot".data l
    || containsSubCI "uncaught".data l
    || containsSubCI "unhandled".data l
    || isStackFrameLine l

/-- The spec's error classifier, for comparison with `detectError`;
built from the words of spec §4.2: literal standard/bright red ANSI
foreground codes of the "SGR 30/31/90/91 family" (256-color/truecolor
approximations explicitly not included), or a case-insensitive match of
the listed failure patterns (`error:`, `fatal`, `critical`, `failed`,
`failure`, `cannot`, `uncaught`, `unhandled`, exception-type names,
stack-trace-frame shape). -/
def specIsErrorLine (line : String) : Bool :=
  let l := line.data
  (containsSub "\x1b[30m".data l || containsSub "\x1b[31m".data l
      || containsSub "\x1b[90m".data l || containsSub "\x1b[91m".data l)
    || containsSubCI "error:".data l
    || containsSubCI "fatal".data l
    || containsSubCI "critical".data l
    || containsSubCI "failed".data l
    || containsSubCI "failure".data l
    || containsSubCI "cannot".data l
    || containsSubCI "uncaught".data l
    || containsSubCI "unhandled".data l
    || containsSubCI "SyntaxError".data l
    || containsSubCI "TypeError".data l
    || containsSubCI "ReferenceError".data l
    || isStackFrameLine l

/-! ## Process supervisor: exit handling and restart policy
(`ProcessManager`, `src/unnamed/part_002`) -/

/-- `RestartPolicy` from the CLI module (`'never' | 'on-error' | 'on-exit'`). -/
inductive RestartPolicy where
  | never
  | onError
  | onExit
  deriving DecidableEq, Repr

/-- `RestartConfig`: a policy and a delay in milliseconds. -/
structure RestartConfig where
  policy : RestartPolicy
  delay : Nat
  deriving DecidableEq, Repr

/-- `ProcessStatus` (`src/unnamed/part_002:6`). -/
inductive ProcessStatus where
  | running
  | stopped
  | error
  | unknown
  deriving DecidableEq, Repr

/-- `typeof code === 'number' && code !== 0` (`part_002:161`): a `null`
(signal) exit code does *not* count as non-zero here. -/
def hasNonZeroExitCode (code : Option Int) : Bool :=
  match code with
  | some n => n ≠ 0
  | none => false

/-- The restart decision of the exit handler (`part_002:194-209`):
`on-exit` always schedules, `on-error` schedules only on
`hasNonZeroExitCode`, `never` (or a supervisor-initiated exit, or no
policy) schedules nothing. -/
def willRestart (restart : Option RestartConfig) (wasIntentionalExit : Bool)
    (code : Option Int) : Bool :=
  match restart with
  | none => false
  | some rc =>
    if wasIntentionalExit then false
    else
      match rc.policy with
      | .onExit => true
      | .onError => hasNonZeroExitCode code
      | .never => false

/-- Decimal digits of a natural number, least significant first
(structural recursion on a fuel bound so that the kernel can evaluate
it; `n` itself bounds the digit count). -/
def natDigitsRevAux : Nat → Nat → List Char
  | 0, _ => []
  | _ + 1, 0 => []
  | fuel + 1, n + 1 =>
    Nat.digitChar ((n + 1) % 10) :: natDigitsRevAux fuel ((n + 1) / 10)

/-- Decimal digits of a natural number, least significant first. -/
def natDigitsRev (n : Nat) : List Char :=
  natDigitsRevAux n n

/-- Decimal rendering of a natural number. -/
def natToString (n : Nat) : String :=
  if n = 0 then "0" else String.mk (natDigitsRev n).reverse

/-- JavaScript's decimal rendering of an integral number
(`code.toString()` / `${code}`). -/
def jsIntToString (n : Int) : String :=
  if n < 0 then "-" ++ natToString n.natAbs else natToString n.natAbs

/-- `const exitEmoji = code === 0 ? '•' : '×'` (`part_002:213,496`). -/
def exitEmoji (code : Option Int) : String :=
  if code = some 0 then "•" else "×"

/-- `const exitCodeStr = code === null ? 'null' : code.toString()`
(`part_002:214,497`). -/
def exitCodeStr (code : Option Int) : String :=
  match code with
  | none => "null"
  | some n => jsIntToString n

/-- `String.prototype.trim`: drop leading and trailing ECMAScript
whitespace. -/
def trimList (l : List Char) : List Char :=
  ((l.dropWhile jsWsChar).reverse.dropWhile jsWsChar).reverse

/-- `.trim()` on a string. -/
def jsTrim (s : String) : String :=
  String.mk (trimList s.data)

/-- The standalone exit message
```${exitEmoji} Process exited with code ${exitCodeStr}`.trim()``
(`part_002:215`), logged when no restart was scheduled. -/
def exitMessage (code : Option Int) : String :=
  jsTrim (exitEmoji code ++ " Process exited with code " ++ exitCodeStr code)

/-- The message logged by `scheduleRestart` (`part_002:491-502`).  The
outer `Option` on `exitCode` models the `undefined` case of the
optional parameter (the fallback branch, unreachable from the exit
handler, which always passes a code).  `delaySeconds` stands for
`(delay / 1000).toFixed(1)` — the floating-point rendering itself is
not modelled — and `processName` for the `procInfo?.name ?? …`
fallback. -/
def scheduleRestartMessage (exitCode : Option (Option Int))
    (processName delaySeconds : String) : String :=
  match exitCode with
  | some c =>
    jsTrim (exitEmoji c ++ " Process exited with code " ++ exitCodeStr c
      ++ " › " ++ delaySeconds ++ "s")
  | none => jsTrim ("› " ++ processName ++ " " ++ delaySeconds ++ "s")

/-- What the `exit` handler leaves behind. -/
structure ExitOutcome where
  status : ProcessStatus
  crashCountIncremented : Bool
  willRestart : Bool
  systemMessages : List String
  deriving DecidableEq, Repr

/-- The `proc.on('exit')` handler (`part_002:158-220`).  `procMatches`
is the guard `procInfo && procInfo.process === proc`; when it fails the
handler does nothing to the record.  Raw partial-line flushes are plain
child-output log calls, not system messages, and are outside this
model.  When a restart is scheduled the only system message is the
combined one emitted inside `scheduleRestart`; otherwise it is the
standalone exit message. -/
def processExit (procMatches : Bool) (restart : Option RestartConfig)
    (wasIntentionalExit : Bool) (code : Option Int)
    (processName delaySeconds : String) : Option ExitOutcome :=
  if procMatches then
    let wr := willRestart restart wasIntentionalExit code
    some
      { status := .stopped
        crashCountIncremented := hasNonZeroExitCode code && !wasIntentionalExit
        willRestart := wr
        systemMessages :=
          if wr then [scheduleRestartMessage (some code) processName delaySeconds]
          else [exitMessage code] }
  else none

/-- `ProcessManager.checkRecentErrors` (`part_002:258-276`) as a pure
status transition, given the record's current status, the stored
per-process log entries, and the child handle's `exitCode` property and
`killed` flag. -/
def checkRecentErrors (status : ProcessStatus) (logs : List LogEntry)
    (exitCode : Option Int) (killed : Bool) : ProcessStatus :=
  if status = .stopped ∨ status = .unknown then status
  else
    let recentLogs := logs.drop (logs.length - 10)
    let hasRecentError := recentLogs.any (fun log => detectError log.line)
    if hasRecentError ∧ status = .running then .error
    else if ¬hasRecentError ∧ status = .error ∧ exitCode = none ∧ ¬killed then
      .running
    else status

/-! ## Restart-timer bookkeeping (`restartTimeouts`, C3)

The manager keeps `restartTimeouts : Map<number, Timeout>`.  A timer
object is modelled by a token (`nextToken` numbers the `setTimeout`
calls); `live` is the set of callbacks the runtime still has pending —
`clearTimeout` and firing remove a callback from it. -/

/-- Timer-relevant manager state. -/
structure TimerState where
  restartTimeouts : List (Nat × Nat)
  live : List (Nat × Nat)
  nextToken : Nat
  deriving DecidableEq, Repr

/-- Constructor state: no timers. -/
def TimerState.init : TimerState := ⟨[], [], 0⟩

/-- `clearTimeout(t)`: the runtime drops the pending callback `t`. -/
def clearTimeoutTok (live : List (Nat × Nat)) (tok : Nat) : List (Nat × Nat) :=
  live.filter (fun p => p.2 ≠ tok)

/-- The timer part of `scheduleRestart` (`part_002:479-519`): clear any
existing timeout found in the map for this id, `setTimeout` a fresh
timer, store it in the map (`Map.set` replaces the entry). -/
def TimerState.scheduleRestart (s : TimerState) (id : Nat) : TimerState :=
  let live1 :=
    match s.restartTimeouts.lookup id with
    | some t => clearTimeoutTok s.live t
    | none => s.live
  { restartTimeouts := (id, s.nextToken) :: s.restartTimeouts.filter (fun p => p.1 ≠ id)
    live := (id, s.nextToken) :: live1
    nextToken := s.nextToken + 1 }

/-- The timer part of `restart`'s entry (`part_002:439-443`): clear and
delete any pending timeout for the id (manual or automatic restart). -/
def TimerState.restartEntry (s : TimerState) (id : Nat) : TimerState :=
  match s.restartTimeouts.lookup id with
  | some t =>
    { restartTimeouts := s.restartTimeouts.filter (fun p => p.1 ≠ id)
      live := clearTimeoutTok s.live t
      nextToken := s.nextToken }
  | none => s

/-- A scheduled callback `(id, tok)` firing (`part_002:512-515`): the
runtime retires the pending callback, the callback body deletes the
map entry and calls `restart`, whose own pending-timeout lookup then
finds nothing.  A token no longer pending fires nothing. -/
def TimerState.fireTimer (s : TimerState) (id tok : Nat) : TimerState :=
  if (id, tok) ∈ s.live then
    { restartTimeouts := s.restartTimeouts.filter (fun p => p.1 ≠ id)
      live := s.live.filter (fun p => p ≠ (id, tok))
      nextToken := s.nextToken }
  else s

/-- The timer part of `killAll` (`part_002:310-313`): `clearTimeout`
every value held in the map, then clear the map. -/
def TimerState.killAllTimers (s : TimerState) : TimerState :=
  { restartTimeouts := []
    live := s.live.filter (fun p => ¬ s.restartTimeouts.any (fun q => q.2 = p.2))
    nextToken := s.nextToken }

/-- The operations that touch the timer map. -/
inductive TimerOp where
  | schedule (id : Nat)
  | restartOp (id : Nat)
  | fire (id tok : Nat)
  | killAllOp
  deriving DecidableEq, Repr

/-- Apply one operation. -/
def TimerState.applyOp (s : TimerState) : TimerOp → TimerState
  | .schedule id => s.scheduleRestart id
  | .restartOp id => s.restartEntry id
  | .fire id tok => s.fireTimer id tok
  | .killAllOp => s.killAllTimers

/-- Run a sequence of timer operations from the constructor state. -/
def runTimerOps (ops : List TimerOp) : TimerState :=
  ops.foldl TimerState.applyOp .init

/-- The inductive invariant: every live callback is the one recorded in
the map for its id. -/
def TimerInv (s : TimerState) : Prop :=
  ∀ id t, (id, t) ∈ s.live → s.restartTimeouts.lookup id = some t

/-! ## `killAll` (C2)

`killAll` (`part_002:307-383`) runs in phases: synchronously clear all
restart timers and restart flags, then for each live process create a
grace-period promise and send SIGTERM (all sends happen during the
synchronous `forEach`, before any await), await all (each promise
settles on the exit event or after 1000 ms), then for each process
whose handle is still not marked `killed` send SIGKILL and await exit
or 500 ms, and finally resolve.  The embedding renders this as the
ordered list of externally visible actions; the concurrent waits of one
phase are recorded in process order (the claims below are invariant
under permutations within a phase).  The OS behaviour is an oracle:
`exit1 id` (`exit2 id`) says whether the exit event arrives during the
first (second) grace period, `killedByTerm id` whether the SIGTERM
attempt marked the handle `killed` (on the POSIX main path,
`process.kill(-pid)` never does; the `ChildProcess.kill` fallback
does). -/

/-- The two signals `killAll` sends. -/
inductive Sig where
  | sigterm
  | sigkill
  deriving DecidableEq, Repr

/-- How one bounded wait settled. -/
inductive WaitOutcome where
  | exited
  | elapsed (ms : Nat)
  deriving DecidableEq, Repr

/-- Externally visible actions of `killAll`. -/
inductive KAction where
  | clearTimer (id tok : Nat)
  | clearRestartFlag (id : Nat)
  | emitRestartState (id : Nat)
  | signal (id : Nat) (sig : Sig)
  | wait (id : Nat) (outcome : WaitOutcome)
  | resolve
  deriving DecidableEq, Repr

/-- Timer cancellation or restart-flag clearing (with its event). -/
def KAction.isClearish : KAction → Bool
  | .clearTimer _ _ => true
  | .clearRestartFlag _ => true
  | .emitRestartState _ => true
  | _ => false

/-- A termination signal. -/
def KAction.isSignal : KAction → Bool
  | .signal _ _ => true
  | _ => false

/-- A tracked process at `killAll` entry: its id and whether its
handle is already marked `killed`. -/
structure KProc where
  id : Nat
  killed : Bool
  deriving DecidableEq, Repr

/-- The synchronous prologue (`part_002:310-318`): clear every pending
timeout, then set every `isRestartingMap` key to `false`, emitting a
restart-state event per key. -/
def killAllClears (timers : List (Nat × Nat)) (restarting : List Nat) :
    List KAction :=
  (timers.map fun q => KAction.clearTimer q.1 q.2)
    ++ (restarting.flatMap fun id =>
        [KAction.clearRestartFlag id, KAction.emitRestartState id])

/-- The termination phases (`part_002:320-382`). -/
def killAllPhases (procs : List KProc) (exit1 killedByTerm exit2 : Nat → Bool) :
    List KAction :=
  let liveProcs := procs.filter (fun p => !p.killed)
  let phase2 := procs.filter (fun p => !p.killed && !killedByTerm p.id)
  (liveProcs.map fun p => KAction.signal p.id .sigterm)
    ++ (liveProcs.map fun p =>
        KAction.wait p.id (if exit1 p.id then .exited else .elapsed 1000))
    ++ (phase2.map fun p => KAction.signal p.id .sigkill)
    ++ (phase2.map fun p =>
        KAction.wait p.id
          (if exit1 p.id then .elapsed 500
           else if exit2 p.id then .exited else .elapsed 500))
    ++ [KAction.resolve]

/-- The whole `killAll` action trace. -/
def killAllTrace (timers : List (Nat × Nat)) (restarting : List Nat)
    (procs : List KProc) (exit1 killedByTerm exit2 : Nat → Bool) :
    List KAction :=
  killAllClears timers restarting ++ killAllPhases procs exit1 killedByTerm exit2

lemma pushCap_of_lt (cap : Nat) (l : List LogEntry) (e : LogEntry)
    (h : l.length < cap) : pushCap cap l e = l ++ [e] := by
  simp only [pushCap, List.length_append, List.length_singleton]
  rw [if_neg (by omega)]

lemma pushCap_of_ge (cap : Nat) (l : List LogEntry) (e : LogEntry)
    (h : cap ≤ l.length) : pushCap cap l e = (l ++ [e]).tail := by
  simp only [pushCap, List.length_append, List.length_singleton]
  rw [if_pos (by omega)]

lemma tail_drop_append (k : Nat) (l : List LogEntry) (e : LogEntry)
    (h : k < l.length) :
    (l.drop k ++ [e]).tail = l.drop (k + 1) ++ [e] := by
  induction l generalizing k with
  | nil => simp at h
  | cons a t ih =>
    cases k with
    | zero => simp
    | succ k => simpa using ih k (by simpa using h)

/-- Folding capped pushes from the empty buffer keeps exactly the last
`cap` appended entries (all of them while below capacity). -/
lemma foldl_pushCap (cap : Nat) (hcap : 1 ≤ cap) (xs : List LogEntry) :
    xs.foldl (pushCap cap) [] = xs.drop (xs.length - cap) := by
  induction xs using List.reverseRecOn with
  | nil => simp
  | append_singleton ys e ih =>
    rw [List.foldl_append, ih]
    simp only [List.foldl_cons, List.foldl_nil, List.length_append,
      List.length_singleton]
    by_cases h : ys.length < cap
    · have h0 : ys.length - cap = 0 := Nat.sub_eq_zero_of_le (le_of_lt h)
      have h1 : ys.length + 1 - cap = 0 := by omega
      rw [h0, List.drop_zero, pushCap_of_lt cap ys e h, h1, List.drop_zero]
    · push_neg at h
      have hk : ys.length - cap < ys.length := by omega
      rw [pushCap_of_ge cap _ e (by rw [List.length_drop]; omega),
        tail_drop_append _ _ _ hk]
      have h2 : ys.length + 1 - cap = (ys.length - cap) + 1 := by omega
      rw [h2, List.drop_append_of_le_length (by omega)]

lemma runAdds_cons (s : LogBuffer) (r : AddReq) (rest : List AddReq) :
    runAdds s (r :: rest) = runAdds (s.addLog r.id r.line r.source r.ts) rest := rfl

lemma addLog_maxLines (s : LogBuffer) (p : Nat) (line : String) (src : Source)
    (now : Nat) : (s.addLog p line src now).maxLines = s.maxLines := rfl

lemma runAdds_buffers (s : LogBuffer) (reqs : List AddReq) (p : Nat) :
    (runAdds s reqs).buffers p =
      (perEntries p reqs).foldl (pushCap s.maxLines) (s.buffers p) := by
  induction reqs generalizing s with
  | nil => rfl
  | cons r rest ih =>
    rw [runAdds_cons, ih]
    by_cases hp : r.id = p
    · subst hp
      simp [perEntries, perEntry, LogBuffer.addLog]
    · simp [perEntries, perEntry, LogBuffer.addLog, hp, Ne.symm hp]

lemma runAdds_unified (s : LogBuffer) (reqs : List AddReq) :
    (runAdds s reqs).unifiedBuffer =
      (uniEntries reqs).foldl (pushCap (s.maxLines * 10)) s.unifiedBuffer := by
  induction reqs generalizing s with
  | nil => rfl
  | cons r rest ih =>
    rw [runAdds_cons, ih]
    simp [uniEntries, uniEntry, LogBuffer.addLog]

/-- **C5**: replaying any sequence of `addLog` calls against a fresh
store, `getLogs p` returns exactly the suffix of `p`'s appended entries
that fits the capacity 1000 — so entries come back oldest first in
append order, the per-process buffer never holds more than 1000, and
after appending `1000 + k` entries the oldest `k` have been evicted
(the buffer equals the append list with its first `k` entries dropped).
The unified buffer behaves the same with capacity `10 * 1000`, ten
times the per-process capacity `maxLines = 1000`. -/
theorem C5_log_store_capacity_and_order (reqs : List AddReq) (p : Nat) :
    (runAdds LogBuffer.new reqs).getLogs p
        = (perEntries p reqs).drop ((perEntries p reqs).length - 1000)
    ∧ ((runAdds LogBuffer.new reqs).getLogs p).length ≤ 1000
    ∧ (runAdds LogBuffer.new reqs).getUnifiedLogs
        = (uniEntries reqs).drop ((uniEntries reqs).length - 10 * 1000)
    ∧ ((runAdds LogBuffer.new reqs).getUnifiedLogs).length ≤ 10 * 1000
    ∧ LogBuffer.new.maxLines = 1000 := by
  have hb : (runAdds LogBuffer.new reqs).getLogs p
      = (perEntries p reqs).drop ((perEntries p reqs).length - 1000) := by
    show (runAdds LogBuffer.new reqs).buffers p = _
    rw [runAdds_buffers]
    exact foldl_pushCap 1000 (by norm_num) _
  have hu : (runAdds LogBuffer.new reqs).getUnifiedLogs
      = (uniEntries reqs).drop ((uniEntries reqs).length - 10 * 1000) := by
    show (runAdds LogBuffer.new reqs).unifiedBuffer = _
    rw [runAdds_unified]
    have : LogBuffer.new.maxLines * 10 = 10 * 1000 := by rfl
    rw [this]
    exact foldl_pushCap (10 * 1000) (by norm_num) _
  refine ⟨hb, ?_, hu, ?_, rfl⟩
  · rw [hb, List.length_drop]; omega
  · rw [hu, List.length_drop]; omega

/-- **C6** (evaluation at the failing input): the store's `addLog`
declares no `isSystem` parameter, so the flag passed by
`startCommand`'s system-message calls is dropped, and the per-process
copy of an entry carries no owning process id either — only the
unified copy does.  Appending the system start message
`› Service starting` for process 1 stores an entry whose fields are
exactly line/source/timestamp with `processId = none`. -/
theorem C6_stored_entry_has_no_flag_and_no_id :
    (LogBuffer.new.addLog 1 "› Service starting" .stdout 0).getLogs 1
      = [{ line := "› Service starting", source := .stdout, timestamp := 0,
           processId := none }]
    ∧ (LogBuffer.new.addLog 1 "› Service starting" .stdout 0).getUnifiedLogs
      = [{ line := "› Service starting", source := .stdout, timestamp := 0,
           processId := some 1 }] := by
  constructor <;> rfl

/-- **C10**: `clear p` empties only `p`'s per-process buffer; any other
id's buffer and the whole unified buffer are untouched, so previously
appended entries (including `p`'s) are still returned by
`getUnifiedLogs`. -/
theorem C10_clear_is_per_process_only (s : LogBuffer) (p q : Nat) (h : q ≠ p) :
    (s.clear p).getLogs p = []
    ∧ (s.clear p).getUnifiedLogs = s.getUnifiedLogs
    ∧ (s.clear p).getLogs q = s.getLogs q := by
  refine ⟨?_, rfl, ?_⟩
  · simp [LogBuffer.clear, LogBuffer.getLogs]
  · simp [LogBuffer.clear, LogBuffer.getLogs, h]

/-- Witness for C10 at a concrete store holding entries for ids 1 and 2. -/
theorem C10_clear_is_per_process_only_witness :
    ((runAdds LogBuffer.new
        [⟨1, "a", .stdout, 0⟩, ⟨2, "b", .stderr, 1⟩]).clear 1).getLogs 1 = []
    ∧ ((runAdds LogBuffer.new
        [⟨1, "a", .stdout, 0⟩, ⟨2, "b", .stderr, 1⟩]).clear 1).getUnifiedLogs
      = (runAdds LogBuffer.new
        [⟨1, "a", .stdout, 0⟩, ⟨2, "b", .stderr, 1⟩]).getUnifiedLogs
    ∧ ((runAdds LogBuffer.new
        [⟨1, "a", .stdout, 0⟩, ⟨2, "b", .stderr, 1⟩]).clear 1).getLogs 2
      = (runAdds LogBuffer.new
        [⟨1, "a", .stdout, 0⟩, ⟨2, "b", .stderr, 1⟩]).getLogs 2 :=
  C10_clear_is_per_process_only _ 1 2 (by decide)

lemma prefixAt_iff (n h : List Char) :
    prefixAt n h = true ↔ ∃ b, h = n ++ b := by
  induction n generalizing h with
  | nil => simp [prefixAt]
  | cons a n ih =>
    cases h with
    | nil => simp [prefixAt]
    | cons b t =>
      simp only [prefixAt, Bool.and_eq_true, decide_eq_true_eq, ih,
        List.cons_append, List.cons.injEq]
      constructor
      · rintro ⟨rfl, r, rfl⟩; exact ⟨r, rfl, rfl⟩
      · rintro ⟨r, rfl, rfl⟩; exact ⟨rfl, r, rfl⟩

lemma containsSub_iff (n h : List Char) :
    containsSub n h = true ↔ ∃ a b, h = a ++ n ++ b := by
  induction h with
  | nil =>
    simp only [containsSub, prefixAt_iff]
    constructor
    · rintro ⟨b, hb⟩; exact ⟨[], b, by simpa using hb⟩
    · rintro ⟨a, b, hab⟩
      have h3 : a = [] ∧ n = [] ∧ b = [] := by simpa using hab.symm
      obtain ⟨rfl, rfl, rfl⟩ := h3
      exact ⟨[], rfl⟩
  | cons c t ih =>
    simp only [containsSub, Bool.or_eq_true, prefixAt_iff, ih]
    constructor
    · rintro (⟨b, hb⟩ | ⟨a, b, hb⟩)
      · exact ⟨[], b, by simpa using hb⟩
      · exact ⟨c :: a, b, by simp [hb]⟩
    · rintro ⟨a, b, hb⟩
      cases a with
      | nil => exact Or.inl ⟨b, by simpa using hb⟩
      | cons x a =>
        rcases List.cons.injEq .. ▸ hb with ⟨rfl, hb⟩
        exact Or.inr ⟨a, b, by simpa using hb⟩

set_option maxHeartbeats 1000000 in
/-- **C9 counterexample**: the claim says the classifier fires exactly
on the "SGR 30/31/90/91 family" of red codes (or a failure pattern).
On the line consisting of the literal SGR 30 sequence `ESC[30m`, the
spec-side classifier fires but the code's `detectError` does not — the
source matches only `ESC[31m`, `ESC[91m` and `ESC[38;5;1m`. -/
theorem C9_counterexample :
    specIsErrorLine "\x1b[30m" = true ∧ detectError "\x1b[30m" = false := by
  constructor <;> decide

set_option maxHeartbeats 1000000 in
/-- **C9 (amended)**: `detectError` is a pure function of the line's
text, returning `true` exactly when the line contains one of the three
literal sequences `ESC[31m`, `ESC[91m`, `ESC[38;5;1m`, or a
case-insensitive occurrence of one of the eleven fixed failure
literals (`SyntaxError`, `TypeError`, `ReferenceError`, `Error:`,
`FATAL`, `CRITICAL`, `failed`, `failure`, `cannot`, `uncaught`,
`unhandled`), or `Error` followed by whitespace then `at`
(case-insensitively), or the whole line has the anchored
stack-trace-frame shape `^\s+at .+\(.+:\d+:\d+\)$`. -/
theorem C9_detectError_characterization (line : String) :
    detectError line = true ↔
      ((∃ a b, line.data = a ++ "\x1b[31m".data ++ b)
        ∨ (∃ a b, line.data = a ++ "\x1b[91m".data ++ b)
        ∨ (∃ a b, line.data = a ++ "\x1b[38;5;1m".data ++ b)
        ∨ (∃ a b, line.data.map asciiLower = a ++ "syntaxerror".data ++ b)
        ∨ (∃ a b, line.data.map asciiLower = a ++ "typeerror".data ++ b)
        ∨ (∃ a b, line.data.map asciiLower = a ++ "referenceerror".data ++ b)
        ∨ (∃ a b, line.data.map asciiLower = a ++ "error:".data ++ b)
        ∨ errorWsAtSub line.data = true
        ∨ (∃ a b, line.data.map asciiLower = a ++ "fatal".data ++ b)
        ∨ (∃ a b, line.data.map asciiLower = a ++ "critical".data ++ b)
        ∨ (∃ a b, line.data.map asciiLower = a ++ "failed".data ++ b)
        ∨ (∃ a b, line.data.map asciiLower = a ++ "failure".data ++ b)
        ∨ (∃ a b, line.data.map asciiLower = a ++ "cannot".data ++ b)
        ∨ (∃ a b, line.data.map asciiLower = a ++ "uncaught".data ++ b)
        ∨ (∃ a b, line.data.map asciiLower = a ++ "unhandled".data ++ b)
        ∨ isStackFrameLine line.data = true) := by
  have e1 : "SyntaxError".data.map asciiLower = "syntaxerror".data := by decide
  have e2 : "TypeError".data.map asciiLower = "typeerror".data := by decide
  have e3 : "ReferenceError".data.map asciiLower = "referenceerror".data := by
    decide
  have e4 : "Error:".data.map asciiLower = "error:".data := by decide
  have e5 : "FATAL".data.map asciiLower = "fatal".data := by decide
  have e6 : "CRITICAL".data.map asciiLower = "critical".data := by decide
  have e7 : "failed".data.map asciiLower = "failed".data := by decide
  have e8 : "failure".data.map asciiLower = "failure".data := by decide
  have e9 : "cannot".data.map asciiLower = "cannot".data := by decide
  have e10 : "uncaught".data.map asciiLower = "uncaught".data := by decide
  have e11 : "unhandled".data.map asciiLower = "unhandled".data := by decide
  simp only [detectError, containsSubCI, e1, e2, e3, e4, e5, e6, e7, e8, e9,
    e10, e11, Bool.or_eq_true, containsSub_iff, or_assoc]

lemma digitChar_nonWs (d : Nat) (h : d < 10) :
    jsWsChar (Nat.digitChar d) = false := by
  interval_cases d <;> decide

lemma natDigitsRevAux_nonWs (fuel : Nat) :
    ∀ n, ∀ c ∈ natDigitsRevAux fuel n, jsWsChar c = false := by
  induction fuel with
  | zero => intro n c hc; simp [natDigitsRevAux] at hc
  | succ f ih =>
    intro n c hc
    cases n with
    | zero => simp [natDigitsRevAux] at hc
    | succ m =>
      simp only [natDigitsRevAux, List.mem_cons] at hc
      rcases hc with rfl | hc
      · exact digitChar_nonWs _ (Nat.mod_lt _ (by norm_num))
      · exact ih _ c hc

lemma natDigitsRev_nonWs (n : Nat) :
    ∀ c ∈ natDigitsRev n, jsWsChar c = false :=
  natDigitsRevAux_nonWs n n

lemma natToString_nonWs (n : Nat) :
    ∀ c ∈ (natToString n).data, jsWsChar c = false := by
  intro c hc
  unfold natToString at hc
  by_cases h : n = 0
  · rw [if_pos h] at hc
    have h0 : c ∈ ['0'] := hc
    simp only [List.mem_singleton] at h0
    subst h0; decide
  · rw [if_neg h] at hc
    exact natDigitsRev_nonWs n c (List.mem_reverse.mp hc)

lemma natToString_ne_nil (n : Nat) : (natToString n).data ≠ [] := by
  unfold natToString
  by_cases h : n = 0
  · rw [if_pos h]; decide
  · rw [if_neg h]
    cases n with
    | zero => exact absurd rfl h
    | succ m =>
      show (natDigitsRev (m + 1)).reverse ≠ []
      simp [natDigitsRev, natDigitsRevAux]

lemma exitCodeStr_nonWs (code : Option Int) :
    ∀ c ∈ (exitCodeStr code).data, jsWsChar c = false := by
  cases code with
  | none =>
    intro c hc
    have h4 : c ∈ ['n', 'u', 'l', 'l'] := hc
    fin_cases h4 <;> decide
  | some n =>
    intro c hc
    simp only [exitCodeStr, jsIntToString] at hc
    by_cases hneg : n < 0
    · rw [if_pos hneg, String.data_append] at hc
      rcases List.mem_append.mp hc with h1 | h2
      · have h3 : c ∈ ['-'] := h1
        simp only [List.mem_singleton] at h3
        subst h3; decide
      · exact natToString_nonWs _ c h2
    · rw [if_neg hneg] at hc
      exact natToString_nonWs _ c hc

lemma exitCodeStr_ne_nil (code : Option Int) : (exitCodeStr code).data ≠ [] := by
  cases code with
  | none => decide
  | some n =>
    simp only [exitCodeStr, jsIntToString]
    by_cases hneg : n < 0
    · rw [if_pos hneg, String.data_append]
      simp
    · rw [if_neg hneg]
      exact natToString_ne_nil _

lemma trimList_eq_self (l : List Char)
    (hhead : ∀ c, l.head? = some c → jsWsChar c = false)
    (hlast : ∀ c, l.getLast? = some c → jsWsChar c = false) :
    trimList l = l := by
  induction l using List.reverseRecOn with
  | nil => rfl
  | append_singleton l2 d _ =>
    have hd : jsWsChar d = false :=
      hlast d (by rw [List.getLast?_append_of_ne_nil l2 (by simp)]; rfl)
    cases l2 with
    | nil => simp [trimList, List.dropWhile, hd]
    | cons c t =>
      have hc : jsWsChar c = false := hhead c rfl
      unfold trimList
      have e1 : List.dropWhile jsWsChar ((c :: t) ++ [d]) = (c :: t) ++ [d] := by
        rw [List.cons_append, List.dropWhile_cons]
        simp [hc]
      rw [e1, List.reverse_append, List.reverse_singleton, List.singleton_append,
        List.dropWhile_cons]
      simp [hd]

lemma jsTrim_eq_self (s : String)
    (hhead : ∀ c, s.data.head? = some c → jsWsChar c = false)
    (hlast : ∀ c, s.data.getLast? = some c → jsWsChar c = false) :
    jsTrim s = s := by
  show String.mk (trimList s.data) = s
  rw [trimList_eq_self s.data hhead hlast]

lemma exitEmoji_data (code : Option Int) :
    (exitEmoji code).data = [if code = some 0 then '•' else '×'] := by
  unfold exitEmoji
  by_cases h : code = some 0 <;> simp [h]

lemma exitMessage_no_trim (code : Option Int) :
    exitMessage code
      = exitEmoji code ++ " Process exited with code " ++ exitCodeStr code := by
  unfold exitMessage
  apply jsTrim_eq_self
  · intro c hc
    simp only [String.data_append, exitEmoji_data, List.append_assoc,
      List.singleton_append, List.cons_append, List.head?_cons,
      Option.some.injEq] at hc
    subst hc
    split <;> decide
  · intro c hc
    rw [String.data_append,
      List.getLast?_append_of_ne_nil _ (exitCodeStr_ne_nil code)] at hc
    exact exitCodeStr_nonWs code c (List.mem_of_getLast?_eq_some hc)

lemma scheduleRestartMessage_no_trim (code : Option Int) (pn ds : String) :
    scheduleRestartMessage (some code) pn ds
      = exitMessage code ++ " › " ++ ds ++ "s" := by
  rw [exitMessage_no_trim]
  show jsTrim _ = _
  apply jsTrim_eq_self
  · intro c hc
    simp only [String.data_append, exitEmoji_data, List.append_assoc,
      List.singleton_append, List.cons_append, List.head?_cons,
      Option.some.injEq] at hc
    subst hc
    split <;> decide
  · intro c hc
    rw [String.data_append,
      List.getLast?_append_of_ne_nil _ (by decide : ("s" : String).data ≠ [])] at hc
    have h2 : c ∈ ['s'] := List.mem_of_getLast?_eq_some hc
    simp only [List.mem_singleton] at h2
    subst h2; decide

/-- **C1 counterexample**: for policy `on-error`, a non-supervisor-initiated
exit with a `null` (signal) exit code does *not* schedule a restart,
refuting the claimed "restart iff exit code non-zero **or absent**":
`hasNonZeroExitCode` requires `typeof code === 'number'`, so the claimed
equivalence fails at `code = null`. -/
theorem C1_counterexample :
    ¬ (willRestart (some ⟨.onError, 1000⟩) false none = true
        ↔ (none : Option Int) ≠ some 0) := by
  decide

/-- **C1 (amended)**: for every process with policy `on-error` whose
exit was not supervisor-initiated, a restart is scheduled iff the exit
code is present and non-zero; a `null`/signal exit code schedules
nothing. -/
theorem C1_onError_restart_iff (delay : Nat) (code : Option Int) :
    willRestart (some ⟨.onError, delay⟩) false code = true ↔
      ∃ n : Int, code = some n ∧ n ≠ 0 := by
  cases code with
  | none => simp [willRestart, hasNonZeroExitCode]
  | some n => simp [willRestart, hasNonZeroExitCode]

/-- **C4**: whenever the exit handler runs against the record whose
process is the exiting one, it sets the record's status to `stopped`,
whatever the exit code (`some 0`, non-zero, or `none`), the policy, or
the intent — the exit code influences only the logged message, never
the resulting status value. -/
theorem C4_exit_always_stops (restart : Option RestartConfig)
    (wasIntentionalExit : Bool) (code : Option Int) (pn ds : String) :
    (processExit true restart wasIntentionalExit code pn ds).map
        ExitOutcome.status = some .stopped := by
  simp [processExit]

/-- **C7**: `checkRecentErrors` moves a `running` record to `error`
exactly when one of the last 10 stored lines matches the heuristic, and
moves an `error` record back to `running` exactly when none of the last
10 stored lines matches *and* the OS process is still alive
(`exitCode === null` and not `killed`). -/
theorem C7_error_status_transitions (logs : List LogEntry)
    (exitCode : Option Int) (killed : Bool) :
    (checkRecentErrors .running logs exitCode killed = .error ↔
      ((logs.drop (logs.length - 10)).any fun log => detectError log.line) = true)
    ∧ (checkRecentErrors .error logs exitCode killed = .running ↔
      ((logs.drop (logs.length - 10)).any fun log => detectError log.line) = false
        ∧ exitCode = none ∧ killed = false) := by
  by_cases h : ((logs.drop (logs.length - 10)).any fun log => detectError log.line) = true
  · constructor
    · simp [checkRecentErrors, h]
    · simp [checkRecentErrors, h]
  · rw [Bool.not_eq_true] at h
    constructor
    · simp [checkRecentErrors, h]
    · cases exitCode with
      | none => cases killed <;> simp [checkRecentErrors, h]
      | some n => cases killed <;> simp [checkRecentErrors, h]

/-- **C8**: the exit handler logs exactly one system exit message:
when no restart is scheduled it is the glyph (`•` on exit code 0, `×`
otherwise) followed by `Process exited with code <N or "null">`; when a
restart is scheduled, the very same line extended with
`` › <delaySeconds>s`` replaces it — the standalone message is
suppressed. -/
theorem C8_exit_message_format (restart : Option RestartConfig)
    (wasIntentionalExit : Bool) (code : Option Int) (pn ds : String) :
    (processExit true restart wasIntentionalExit code pn ds).map
        ExitOutcome.systemMessages
      = some [if willRestart restart wasIntentionalExit code then
                exitMessage code ++ " › " ++ ds ++ "s"
              else exitMessage code]
    ∧ exitMessage code
        = exitEmoji code ++ " Process exited with code " ++ exitCodeStr code := by
  refine ⟨?_, exitMessage_no_trim code⟩
  simp only [processExit, if_pos rfl, Option.map_some, Option.some.injEq]
  by_cases h : willRestart restart wasIntentionalExit code = true
  · simp [h, scheduleRestartMessage_no_trim]
  · rw [Bool.not_eq_true] at h
    simp [h]

lemma lookup_filter_ne (l : List (Nat × Nat)) (id id' : Nat) (h : id' ≠ id) :
    (l.filter (fun p => p.1 ≠ id)).lookup id' = l.lookup id' := by
  induction l with
  | nil => rfl
  | cons p l ih =>
    obtain ⟨k, v⟩ := p
    by_cases hk : k = id
    · subst hk
      have e2 : (id' == k) = false := by simp [h]
      simpa [List.filter_cons, List.lookup, e2] using ih
    · by_cases hk2 : id' = k
      · subst hk2
        simp [List.filter_cons, hk, List.lookup]
      · have e2 : (id' == k) = false := by simp [hk2]
        simpa [List.filter_cons, hk, List.lookup, e2] using ih

lemma lookup_mem {l : List (Nat × Nat)} {a b : Nat} (h : l.lookup a = some b) :
    (a, b) ∈ l := by
  induction l with
  | nil => simp [List.lookup] at h
  | cons p l ih =>
    obtain ⟨k, v⟩ := p
    by_cases hk : a = k
    · subst hk
      have e : (a == a) = true := by simp
      rw [List.lookup, e] at h
      simp only [Option.some.injEq] at h
      subst h
      exact List.mem_cons_self _ _
    · have e : (a == k) = false := by simp [hk]
      rw [List.lookup, e] at h
      exact List.mem_cons_of_mem _ (ih h)

lemma timerInv_init : TimerInv TimerState.init := by
  intro id t h
  simp [TimerState.init] at h

lemma timerInv_applyOp (s : TimerState) (op : TimerOp) (h : TimerInv s) :
    TimerInv (s.applyOp op) := by
  cases op with
  | schedule id =>
    intro id' t' hm
    cases hl : s.restartTimeouts.lookup id with
    | none =>
      simp only [TimerState.applyOp, TimerState.scheduleRestart, hl,
        List.mem_cons] at hm
      simp only [TimerState.applyOp, TimerState.scheduleRestart]
      rcases hm with he | hm
      · rw [Prod.mk.injEq] at he
        obtain ⟨rfl, rfl⟩ := he
        simp [List.lookup]
      · have e := h id' t' hm
        by_cases hid : id' = id
        · subst hid
          rw [hl] at e
          exact absurd e (by simp)
        · have hbeq : (id' == id) = false := by simp [hid]
          simp only [List.lookup, hbeq]
          rw [lookup_filter_ne _ _ _ hid]
          exact e
    | some told =>
      simp only [TimerState.applyOp, TimerState.scheduleRestart, hl,
        clearTimeoutTok, List.mem_cons] at hm
      simp only [TimerState.applyOp, TimerState.scheduleRestart]
      rcases hm with he | hm
      · rw [Prod.mk.injEq] at he
        obtain ⟨rfl, rfl⟩ := he
        simp [List.lookup]
      · have hmem := List.mem_filter.mp hm
        by_cases hid : id' = id
        · subst hid
          exfalso
          have e := h id' t' hmem.1
          rw [hl] at e
          have e3 : told = t' := by simpa using e
          subst e3
          simpa using hmem.2
        · have hbeq : (id' == id) = false := by simp [hid]
          simp only [List.lookup, hbeq]
          rw [lookup_filter_ne _ _ _ hid]
          exact h id' t' hmem.1
  | restartOp id =>
    intro id' t' hm
    cases hl : s.restartTimeouts.lookup id with
    | none =>
      simp only [TimerState.applyOp, TimerState.restartEntry, hl] at hm ⊢
      exact h id' t' hm
    | some told =>
      simp only [TimerState.applyOp, TimerState.restartEntry, hl,
        clearTimeoutTok] at hm ⊢
      have hmem := List.mem_filter.mp hm
      by_cases hid : id' = id
      · subst hid
        exfalso
        have e := h id' t' hmem.1
        rw [hl] at e
        have e3 : told = t' := by simpa using e
        subst e3
        simpa using hmem.2
      · rw [lookup_filter_ne _ _ _ hid]
        exact h id' t' hmem.1
  | fire id tok =>
    intro id' t' hm
    simp only [TimerState.applyOp, TimerState.fireTimer] at hm ⊢
    by_cases hin : (id, tok) ∈ s.live
    · rw [if_pos hin] at hm ⊢
      have hmem := List.mem_filter.mp hm
      by_cases hid : id' = id
      · subst hid
        have e1 := h id' t' hmem.1
        have e2 := h id' tok hin
        rw [e2] at e1
        have e3 : tok = t' := by simpa using e1
        subst e3
        exact absurd hmem.2 (by simp)
      · rw [lookup_filter_ne _ _ _ hid]
        exact h id' t' hmem.1
    · rw [if_neg hin] at hm ⊢
      exact h id' t' hm
  | killAllOp =>
    intro id' t' hm
    simp only [TimerState.applyOp, TimerState.killAllTimers] at hm ⊢
    have hmem := List.mem_filter.mp hm
    exfalso
    have e := h id' t' hmem.1
    have hmap : (id', t') ∈ s.restartTimeouts := lookup_mem e
    have hany : s.restartTimeouts.any (fun q => q.2 = t') = true :=
      List.any_eq_true.mpr ⟨(id', t'), hmap, by simp⟩
    simpa [hany] using hmem.2

lemma runTimerOps_inv (ops : List TimerOp) : TimerInv (runTimerOps ops) := by
  suffices h : ∀ s, TimerInv s → TimerInv (ops.foldl TimerState.applyOp s) from
    h _ timerInv_init
  induction ops with
  | nil => intro s hs; exact hs
  | cons op rest ih =>
    intro s hs
    exact ih _ (timerInv_applyOp s op hs)

/-- **C3**: after any sequence of timer operations (scheduling, manual
or automatic restarts, timer firings, shutdowns), no Command Descriptor
id ever holds two live restart timers: any two pending callbacks for
the same id are the same timer. -/
theorem C3_at_most_one_timer_per_id (ops : List TimerOp) (id t1 t2 : Nat)
    (h1 : (id, t1) ∈ (runTimerOps ops).live)
    (h2 : (id, t2) ∈ (runTimerOps ops).live) : t1 = t2 := by
  have hi := runTimerOps_inv ops
  have e1 := hi id t1 h1
  have e2 := hi id t2 h2
  rw [e1] at e2
  simpa using e2

/-- Witness for C3: scheduling twice for id 1 leaves exactly the second
timer live (`(1, 1)`), and the theorem applies to it. -/
theorem C3_at_most_one_timer_per_id_witness :
    (runTimerOps [TimerOp.schedule 1, TimerOp.schedule 1]).live = [(1, 1)]
    ∧ (1 : Nat) = 1 :=
  ⟨by decide,
   C3_at_most_one_timer_per_id [TimerOp.schedule 1, TimerOp.schedule 1] 1 1 1
    (by decide) (by decide)⟩

/-- **C2**: `killAll` (i) splits into a prologue and a termination
part, where the prologue contains no termination signal and the
termination part no timer/flag clearing — so every pending-timer
cancellation and every restart-flag clearing (with its restart-state
event) happens before any signal is sent; (ii) the prologue cancels
every pending timer and clears (and announces) every restart flag;
(iii) the trace resolves last; and (iv) before resolving, every
tracked live process has either delivered its exit event or sat
through both bounded grace periods (1000 ms graceful, 500 ms
forceful).  The hypothesis `hk` is the environment assumption that the
graceful-kill attempt marks the child handle `killed` only when the
process does exit within the first grace period (the POSIX group-kill
path never sets `killed`; the direct-handle fallback only runs when
the group is already gone). -/
theorem C2_killAll_clears_then_signals_and_settles (timers : List (Nat × Nat))
    (restarting : List Nat) (procs : List KProc)
    (exit1 killedByTerm exit2 : Nat → Bool)
    (hk : ∀ id, killedByTerm id = true → exit1 id = true) :
    (killAllTrace timers restarting procs exit1 killedByTerm exit2
        = killAllClears timers restarting
            ++ killAllPhases procs exit1 killedByTerm exit2)
    ∧ (∀ a ∈ killAllClears timers restarting, a.isSignal = false)
    ∧ (∀ a ∈ killAllPhases procs exit1 killedByTerm exit2, a.isClearish = false)
    ∧ (∀ q ∈ timers, KAction.clearTimer q.1 q.2 ∈ killAllClears timers restarting)
    ∧ (∀ id ∈ restarting,
        KAction.clearRestartFlag id ∈ killAllClears timers restarting
        ∧ KAction.emitRestartState id ∈ killAllClears timers restarting)
    ∧ (killAllTrace timers restarting procs exit1 killedByTerm exit2).getLast?
        = some .resolve
    ∧ (∀ p ∈ procs, p.killed = false →
        KAction.wait p.id .exited
            ∈ killAllTrace timers restarting procs exit1 killedByTerm exit2
        ∨ (KAction.wait p.id (.elapsed 1000)
              ∈ killAllTrace timers restarting procs exit1 killedByTerm exit2
            ∧ KAction.wait p.id (.elapsed 500)
              ∈ killAllTrace timers restarting procs exit1 killedByTerm exit2)) := by
  refine ⟨rfl, ?_, ?_, ?_, ?_, ?_, ?_⟩
  · intro a ha
    simp only [killAllClears, List.mem_append, List.mem_flatMap, List.mem_map,
      List.mem_cons, List.not_mem_nil, or_false] at ha
    rcases ha with ⟨q, _, rfl⟩ | ⟨id, _, rfl | rfl⟩ <;> rfl
  · intro a ha
    simp only [killAllPhases, List.mem_append, List.mem_map,
      List.mem_singleton] at ha
    rcases ha with ((((⟨p, _, rfl⟩ | ⟨p, _, rfl⟩) | ⟨p, _, rfl⟩) | ⟨p, _, rfl⟩) | rfl)
      <;> rfl
  · intro q hq
    simp only [killAllClears, List.mem_append, List.mem_map]
    exact Or.inl ⟨q, hq, rfl⟩
  · intro id hid
    constructor <;>
    · simp only [killAllClears, List.mem_append, List.mem_flatMap,
        List.mem_cons, List.not_mem_nil, or_false]
      exact Or.inr ⟨id, hid, by simp⟩
  · show (killAllClears timers restarting
        ++ killAllPhases procs exit1 killedByTerm exit2).getLast? = _
    rw [List.getLast?_append_of_ne_nil _ (by simp [killAllPhases])]
    simp only [killAllPhases]
    rw [List.getLast?_append_of_ne_nil _ (by simp)]
    rfl
  · intro p hp hkil
    have hlive : p ∈ procs.filter (fun p => !p.killed) :=
      List.mem_filter.mpr ⟨hp, by simp [hkil]⟩
    by_cases he1 : exit1 p.id = true
    · left
      refine List.mem_append_right _ ?_
      simp only [killAllPhases, List.mem_append, List.mem_map]
      refine Or.inl (Or.inl (Or.inl (Or.inr ⟨p, hlive, ?_⟩)))
      simp [he1]
    · have hkt : killedByTerm p.id = false := by
        cases hkt2 : killedByTerm p.id with
        | false => rfl
        | true => exact absurd (hk p.id hkt2) he1
      have hph2 : p ∈ procs.filter (fun p => !p.killed && !killedByTerm p.id) :=
        List.mem_filter.mpr ⟨hp, by simp [hkil, hkt]⟩
      rw [Bool.not_eq_true] at he1
      by_cases he2 : exit2 p.id = true
      · left
        refine List.mem_append_right _ ?_
        simp only [killAllPhases, List.mem_append, List.mem_map]
        refine Or.inl (Or.inr ⟨p, hph2, ?_⟩)
        simp [he1, he2]
      · rw [Bool.not_eq_true] at he2
        right
        constructor
        · refine List.mem_append_right _ ?_
          simp only [killAllPhases, List.mem_append, List.mem_map]
          refine Or.inl (Or.inl (Or.inl (Or.inr ⟨p, hlive, ?_⟩)))
          simp [he1]
        · refine List.mem_append_right _ ?_
          simp only [killAllPhases, List.mem_append, List.mem_map]
          refine Or.inl (Or.inr ⟨p, hph2, ?_⟩)
          simp [he1, he2]

/-- Witness for C2 at a concrete state: one pending timer for id 1,
id 1 marked restarting, one live process 1, and an environment where
the process ignores SIGTERM (no exit events, no `killed` marking). -/
theorem C2_killAll_clears_then_signals_and_settles_witness :
    (killAllTrace [(1, 0)] [1] [⟨1, false⟩] (fun _ => false) (fun _ => false)
          (fun _ => false)
        = killAllClears [(1, 0)] [1]
            ++ killAllPhases [⟨1, false⟩] (fun _ => false) (fun _ => false)
              (fun _ => false))
    ∧ (∀ a ∈ killAllClears [(1, 0)] [1], a.isSignal = false)
    ∧ (∀ a ∈ killAllPhases [⟨1, false⟩] (fun _ => false) (fun _ => false)
          (fun _ => false), a.isClearish = false)
    ∧ (∀ q ∈ [((1 : Nat), (0 : Nat))],
        KAction.clearTimer q.1 q.2 ∈ killAllClears [(1, 0)] [1])
    ∧ (∀ id ∈ [(1 : Nat)],
        KAction.clearRestartFlag id ∈ killAllClears [(1, 0)] [1]
        ∧ KAction.emitRestartState id ∈ killAllClears [(1, 0)] [1])
    ∧ (killAllTrace [(1, 0)] [1] [⟨1, false⟩] (fun _ => false) (fun _ => false)
          (fun _ => false)).getLast? = some .resolve
    ∧ (∀ p ∈ [(⟨1, false⟩ : KProc)], p.killed = false →
        KAction.wait p.id .exited
            ∈ killAllTrace [(1, 0)] [1] [⟨1, false⟩] (fun _ => false)
                (fun _ => false) (fun _ => false)
        ∨ (KAction.wait p.id (.elapsed 1000)
              ∈ killAllTrace [(1, 0)] [1] [⟨1, false⟩] (fun _ => false)
                  (fun _ => false) (fun _ => false)
            ∧ KAction.wait p.id (.elapsed 500)
              ∈ killAllTrace [(1, 0)] [1] [⟨1, false⟩] (fun _ => false)
                  (fun _ => false) (fun _ => false))) :=
  C2_killAll_clears_then_signals_and_settles [(1, 0)] [1] [⟨1, false⟩]
    (fun _ => false) (fun _ => false) (fun _ => false)
    (by intro id h; simp at h)
